import Mathlib

/-!
Verification of the task-dispatch agent (src/main.py): the similarity-search
core (`cosine_similarity`, `task_a9`) and the upstream-calling functions
(`get_embedding`, `query_gpt`), shallowly embedded over lists of reals, with
network responses passed in as explicit data.
-/

namespace AutomationAgent

/-- Dot product of two vectors, as `np.dot` on 1-d arrays (sum of pairwise
products; embedding vectors always share a length). -/
def dot : List ℝ → List ℝ → ℝ
  | a :: as, b :: bs => a * b + dot as bs
  | _, _ => 0

/-- Euclidean norm, as `np.linalg.norm`: square root of the sum of squares. -/
noncomputable def linalg_norm (v : List ℝ) : ℝ :=
  Real.sqrt (dot v v)

/-- Embeds `cosine_similarity` (src/main.py lines 561-579): returns `0.0`
when either vector has zero magnitude, otherwise
`dot(vec1, vec2) / (norm(vec1) * norm(vec2))`. -/
noncomputable def cosine_similarity (vec1 vec2 : List ℝ) : ℝ :=
  if linalg_norm vec1 = 0 ∨ linalg_norm vec2 = 0 then 0
  else dot vec1 vec2 / (linalg_norm vec1 * linalg_norm vec2)

/-- The unordered index pairs `(i, j)` with `i < j`, in the scan order of the
nested loops of `task_a9`: `for i in range(n): for j in range(i+1, n)`. -/
def pairList (n : ℕ) : List (ℕ × ℕ) :=
  (List.range n).flatMap fun i =>
    ((List.range n).filter fun j => i < j).map fun j => (i, j)

/-- Similarity of the pair `p` of indices into the embedding list `e`:
`cosine_similarity(embeddings[i], embeddings[j])`. -/
noncomputable def simOf (e : List (List ℝ)) (p : ℕ × ℕ) : ℝ :=
  cosine_similarity (e.getD p.1 []) (e.getD p.2 [])

/-- One iteration of the scan in `task_a9` (lines 629-634): the running state
is `(max_sim, pair_indices)` and is replaced exactly when `sim > max_sim`. -/
noncomputable def bestStep (s : ℕ × ℕ → ℝ) (st : ℝ × Option (ℕ × ℕ))
    (p : ℕ × ℕ) : ℝ × Option (ℕ × ℕ) :=
  if st.1 < s p then (s p, some p) else st

/-- The full scan of `task_a9` (lines 626-634): start from
`max_sim = -1.0`, `pair_indices = (None, None)` and fold over all pairs. -/
noncomputable def a9Scan (e : List (List ℝ)) : ℝ × Option (ℕ × ℕ) :=
  (pairList e.length).foldl (bestStep (simOf e)) (-1, none)

/-- Error outcomes of `task_a9`, one per distinct raise site
(the code raises `RuntimeError` with a distinct message at each). -/
inductive A9Error where
  /-- RuntimeError "Not enough comments to compute similarity." (line 614) -/
  | insufficientInput
  /-- RuntimeError "Error generating embeddings: ..." (line 623) -/
  | embeddingService (msg : String)
  /-- RuntimeError "Failed to find a similar pair of comments." (line 637) -/
  | noSimilarPair
  deriving Repr, DecidableEq

/-- The pure core of `task_a9` (lines 613-639) as the spec names it: from the
embedding list, the winning `(index_a, index_b, score)` or the error raised. -/
noncomputable def find_most_similar (e : List (List ℝ)) :
    Except A9Error (ℕ × ℕ × ℝ) :=
  if e.length < 2 then .error .insufficientInput
  else
    match a9Scan e with
    | (maxSim, some p) => .ok (p.1, p.2, maxSim)
    | (_, none) => .error .noSimilarPair

/-- The sequential embedding-fetch loop of `task_a9` (lines 617-623): one
fetch per comment in order, aborting at the first failure. -/
def getEmbeddings (fetch : String → Except String (List ℝ)) :
    List String → Except String (List (List ℝ))
  | [] => .ok []
  | c :: cs =>
    match fetch c with
    | .error m => .error m
    | .ok e =>
      match getEmbeddings fetch cs with
      | .error m => .error m
      | .ok es => .ok (e :: es)

/-- Embeds `task_a9` (lines 600-647) past the file read: `comments` is the
stripped line list, `fetch` the embedding service, `outFile` the prior
content of `/data/comments-similar.txt` (`none` if absent). Returns the
final content of that file together with the result: the written pair of
comments on success, or the error raised. -/
noncomputable def task_a9 (fetch : String → Except String (List ℝ))
    (comments : List String) (outFile : Option String) :
    Option String × Except A9Error (ℕ × ℕ × ℝ) :=
  if comments.length < 2 then (outFile, .error .insufficientInput)
  else
    match getEmbeddings fetch comments with
    | .error m => (outFile, .error (.embeddingService m))
    | .ok embeddings =>
      match a9Scan embeddings with
      | (maxSim, some p) =>
        (some (comments.getD p.1 "" ++ "\n" ++ comments.getD p.2 ""),
          .ok (p.1, p.2, maxSim))
      | (_, none) => (outFile, .error .noSimilarPair)

/-- Error outcomes of `get_embedding` (lines 513-557), one per raise site. -/
inductive EmbError where
  /-- ValueError "AIPROXY_TOKEN environment variable is not set." (line 527) -/
  | configuration
  /-- RuntimeError "API Error: ..." from `raise_for_status` (line 550) -/
  | apiError (status : ℕ)
  /-- RuntimeError "An unexpected error occurred: ..." wrapping the
  ValueError for a missing or empty data field (lines 545, 556) -/
  | unexpected (msg : String)
  deriving Repr, DecidableEq

/-- A response of the embeddings endpoint as `get_embedding` inspects it:
the HTTP status and the parsed `data` field (`none` when the key is missing
or not a non-empty list; each element is the `embedding` vector). -/
structure EmbResponse where
  status : ℕ
  data : Option (List (List ℝ))

/-- Embeds `get_embedding` (lines 513-557): `token` is the `AIPROXY_TOKEN`
environment variable, `resp` the upstream response the network call would
yield. The token check precedes any use of `resp`. -/
def get_embedding (token : Option String) (resp : EmbResponse) :
    Except EmbError (List ℝ) :=
  match token with
  | none => .error .configuration
  | some _ =>
    if resp.status < 200 ∨ 300 ≤ resp.status then .error (.apiError resp.status)
    else
      match resp.data with
      | none => .error (.unexpected "Invalid response format: Missing or empty data field.")
      | some [] => .error (.unexpected "Invalid response format: Missing or empty data field.")
      | some (e :: _) => .ok e

/-- A chat-completion message as extracted by `query_gpt`:
`response_data["choices"][0]["message"]`, holding optional text content and
optional tool calls (a tool call kept abstract as its JSON text). -/
structure ChatMessage where
  content : Option String
  tool_calls : Option (List String)
  deriving Repr, DecidableEq

/-- One element of the `choices` array; `message = none` models a missing
"message" key (a KeyError in the source). -/
structure ChatChoice where
  message : Option ChatMessage
  deriving Repr, DecidableEq

/-- The parsed JSON body of a chat-completion response; `choices = none`
models a missing (or non-list) "choices" key. -/
structure ChatBody where
  choices : Option (List ChatChoice)
  deriving Repr, DecidableEq

/-- A response of the chat-completion endpoint as `query_gpt` inspects it:
the HTTP status and the parsed body (`none` when the body is not JSON, so
`response.json()` raises). -/
structure HttpResponse where
  status : ℕ
  body : Option ChatBody
  deriving Repr, DecidableEq

/-- Error outcomes of `query_gpt` (lines 843-898), one per raise site. -/
inductive QueryError where
  /-- ValueError "Environment variable AIPROXY_TOKEN not set." (line 862) -/
  | configuration
  /-- RuntimeError "LLM API Error: ..." from `raise_for_status` (line 888) -/
  | apiError (status : ℕ)
  /-- RuntimeError "LLM API Response Decode Error: ..." (line 895) -/
  | decodeError
  /-- RuntimeError "An unexpected error occurred: ..." wrapping the
  ValueError for missing or empty choices, or a KeyError (line 897) -/
  | unexpected (msg : String)
  deriving Repr, DecidableEq

/-- Embeds `query_gpt` (lines 843-898): `api_key` is `os.getenv` of
`AIPROXY_TOKEN`, `resp` the upstream response the network call would yield.
The key check precedes any use of `resp`; `raise_for_status` fires on every
non-2xx status; then missing or empty `choices` raises, and otherwise
`choices[0]["message"]` is returned. -/
def query_gpt (api_key : Option String) (resp : HttpResponse) :
    Except QueryError ChatMessage :=
  match api_key with
  | none => .error .configuration
  | some _ =>
    if resp.status < 200 ∨ 300 ≤ resp.status then .error (.apiError resp.status)
    else
      match resp.body with
      | none => .error .decodeError
      | some body =>
        match body.choices with
        | none => .error (.unexpected "Unexpected response format: Missing or empty choices in LLM response.")
        | some [] => .error (.unexpected "Unexpected response format: Missing or empty choices in LLM response.")
        | some (c :: _) =>
          match c.message with
          | none => .error (.unexpected "KeyError: message")
          | some m => .ok m

/-! Basic facts about `dot` and `linalg_norm`. -/

theorem dot_comm (a b : List ℝ) : dot a b = dot b a := by
  induction a generalizing b with
  | nil => cases b <;> simp [dot]
  | cons x xs ih =>
    cases b with
    | nil => simp [dot]
    | cons y ys => simp only [dot, ih]; ring

theorem dot_self_nonneg (v : List ℝ) : 0 ≤ dot v v := by
  induction v with
  | nil => simp [dot]
  | cons x xs ih => simp only [dot]; nlinarith [mul_self_nonneg x]

/-- Cauchy-Schwarz for `dot`, by induction on the two lists. -/
theorem dot_sq_le (a b : List ℝ) : dot a b ^ 2 ≤ dot a a * dot b b := by
  induction a generalizing b with
  | nil => cases b <;> simp [dot]
  | cons x xs ih =>
    cases b with
    | nil => simp [dot, mul_comm]
    | cons y ys =>
      have hA := dot_self_nonneg xs
      have hB := dot_self_nonneg ys
      have hD := ih ys
      simp only [dot]
      rcases eq_or_lt_of_le hB with hB0 | hB0
      · have hD2 : dot xs ys ^ 2 = 0 :=
          le_antisymm (by nlinarith) (sq_nonneg _)
        have hD0 : dot xs ys = 0 := by
          have := sq_eq_zero_iff.mp hD2
          exact this
        rw [hD0, show dot ys ys = 0 from hB0.symm]
        nlinarith [mul_nonneg hA (mul_self_nonneg y)]
      · nlinarith [sq_nonneg (x * dot ys ys - y * dot xs ys),
          mul_nonneg (mul_self_nonneg y) (sub_nonneg.mpr hD),
          mul_nonneg hB0.le (sub_nonneg.mpr hD)]

theorem linalg_norm_nonneg (v : List ℝ) : 0 ≤ linalg_norm v :=
  Real.sqrt_nonneg _

theorem dot_self_pos_of_norm_ne (v : List ℝ) (h : linalg_norm v ≠ 0) :
    0 < dot v v := by
  by_contra hle
  exact h (Real.sqrt_eq_zero'.mpr (le_of_not_lt hle))

theorem linalg_norm_pos (v : List ℝ) (h : 0 < dot v v) : 0 < linalg_norm v :=
  Real.sqrt_pos.mpr h

theorem linalg_norm_mul_self (v : List ℝ) :
    linalg_norm v * linalg_norm v = dot v v :=
  Real.mul_self_sqrt (dot_self_nonneg v)

/-! Claims about `cosine_similarity`. -/

/-- C5: whenever at least one of the two vectors has zero magnitude,
`cosine_similarity` returns exactly `0.0`; the division is guarded, so the
division-by-zero branch is unreachable. -/
theorem cosine_similarity_zero_vector (vec1 vec2 : List ℝ)
    (h : linalg_norm vec1 = 0 ∨ linalg_norm vec2 = 0) :
    cosine_similarity vec1 vec2 = 0 := by
  unfold cosine_similarity
  rw [if_pos h]

theorem cosine_similarity_zero_vector_witness :
    linalg_norm [(0 : ℝ)] = 0 ∧ cosine_similarity [(0 : ℝ)] [1] = 0 := by
  have h0 : linalg_norm [(0 : ℝ)] = 0 := by
    unfold linalg_norm
    simp [dot]
  exact ⟨h0, cosine_similarity_zero_vector _ _ (Or.inl h0)⟩

/-- C7: `cosine_similarity` is symmetric in its two arguments. -/
theorem cosine_similarity_comm (a b : List ℝ) :
    cosine_similarity a b = cosine_similarity b a := by
  unfold cosine_similarity
  rw [dot_comm a b]
  exact if_congr or_comm rfl (by rw [mul_comm])

/-- C8: for every vector of nonzero norm, `cosine_similarity` of the vector
with itself is exactly `1.0`. -/
theorem cosine_similarity_self (v : List ℝ) (h : linalg_norm v ≠ 0) :
    cosine_similarity v v = 1 := by
  have hpos : 0 < dot v v := dot_self_pos_of_norm_ne v h
  unfold cosine_similarity
  rw [if_neg (by simp [h]), linalg_norm_mul_self]
  exact div_self hpos.ne'

theorem cosine_similarity_self_witness :
    linalg_norm [(1 : ℝ)] ≠ 0 ∧ cosine_similarity [(1 : ℝ)] [1] = 1 := by
  have h1 : linalg_norm [(1 : ℝ)] = 1 := by
    unfold linalg_norm
    simp [dot]
  have hne : linalg_norm [(1 : ℝ)] ≠ 0 := by rw [h1]; norm_num
  exact ⟨hne, cosine_similarity_self _ hne⟩

/-- C6: for every pair of vectors, the score returned by
`cosine_similarity` lies in the closed interval from -1 to 1. -/
theorem cosine_similarity_range (vec1 vec2 : List ℝ) :
    -1 ≤ cosine_similarity vec1 vec2 ∧ cosine_similarity vec1 vec2 ≤ 1 := by
  unfold cosine_similarity
  by_cases h : linalg_norm vec1 = 0 ∨ linalg_norm vec2 = 0
  · rw [if_pos h]; norm_num
  · rw [if_neg h]
    push_neg at h
    have hn1 : 0 < linalg_norm vec1 :=
      linalg_norm_pos _ (dot_self_pos_of_norm_ne _ h.1)
    have hn2 : 0 < linalg_norm vec2 :=
      linalg_norm_pos _ (dot_self_pos_of_norm_ne _ h.2)
    have hm : 0 < linalg_norm vec1 * linalg_norm vec2 := mul_pos hn1 hn2
    have hcs : dot vec1 vec2 ^ 2 ≤ (linalg_norm vec1 * linalg_norm vec2) ^ 2 := by
      calc dot vec1 vec2 ^ 2 ≤ dot vec1 vec1 * dot vec2 vec2 := dot_sq_le vec1 vec2
        _ = (linalg_norm vec1 * linalg_norm vec2) ^ 2 := by
            rw [mul_pow, sq, sq, linalg_norm_mul_self, linalg_norm_mul_self]
    constructor
    · rw [le_div_iff₀ hm]
      nlinarith [sq_nonneg (dot vec1 vec2 + linalg_norm vec1 * linalg_norm vec2)]
    · rw [div_le_one hm]
      nlinarith [sq_nonneg (dot vec1 vec2 - linalg_norm vec1 * linalg_norm vec2)]

/-! Claims about the upstream-calling functions. -/

/-- C9: with the `AIPROXY_TOKEN` environment variable absent, both
`get_embedding` and `query_gpt` fail with their configuration error, and the
result does not depend on the upstream response at all: the check precedes
any network call. -/
theorem missing_token_fails_fast (er : EmbResponse) (cr : HttpResponse) :
    get_embedding none er = .error .configuration ∧
      query_gpt none cr = .error .configuration :=
  ⟨rfl, rfl⟩

theorem missing_token_fails_fast_witness :
    get_embedding none ⟨200, some [[1]]⟩ = .error .configuration ∧
      query_gpt none ⟨200, some ⟨some []⟩⟩ = .error .configuration :=
  missing_token_fails_fast ⟨200, some [[1]]⟩ ⟨200, some ⟨some []⟩⟩

/-- C2: `query_gpt` distinguishes upstream error kinds: a non-2xx status
surfaces as the `raise_for_status` API error (the code's analogue of
`UpstreamUnavailableError`); a 2xx response whose parsed body lacks `choices`
or has an empty `choices` list surfaces as the distinct
"Unexpected response format" error (the code's analogue of
`UpstreamProtocolError`); and a successful `.ok` result only ever arises
from a well-formed response, so a malformed response is never silently
treated as the textual no-tool-chosen result. -/
theorem query_gpt_error_kinds (tok : String) (st : ℕ) (bd : Option ChatBody) :
    ((st < 200 ∨ 300 ≤ st) →
      query_gpt (some tok) ⟨st, bd⟩ = .error (.apiError st)) ∧
    (200 ≤ st → st < 300 →
      ∀ body, bd = some body →
        (body.choices = none ∨ body.choices = some []) →
        query_gpt (some tok) ⟨st, bd⟩ = .error (.unexpected
          "Unexpected response format: Missing or empty choices in LLM response.")) ∧
    (∀ m, query_gpt (some tok) ⟨st, bd⟩ = .ok m →
      ∃ body c rest, bd = some body ∧
        body.choices = some (c :: rest) ∧ c.message = some m) := by
  refine ⟨?_, ?_, ?_⟩
  · intro h
    simp only [query_gpt]
    rw [if_pos h]
  · intro h1 h2 body hb hch
    subst hb
    obtain ⟨choices⟩ := body
    rcases hch with hch | hch <;>
      (simp only at hch; subst hch; simp only [query_gpt]; rw [if_neg (by omega)])
  · intro m hm
    by_cases h : st < 200 ∨ 300 ≤ st
    · simp only [query_gpt] at hm
      rw [if_pos h] at hm
      cases hm
    · cases bd with
      | none =>
        simp only [query_gpt] at hm
        rw [if_neg h] at hm
        cases hm
      | some body =>
        obtain ⟨choices⟩ := body
        cases choices with
        | none =>
          simp only [query_gpt] at hm
          rw [if_neg h] at hm
          cases hm
        | some cs =>
          cases cs with
          | nil =>
            simp only [query_gpt] at hm
            rw [if_neg h] at hm
            cases hm
          | cons c rest =>
            obtain ⟨cmsg⟩ := c
            cases cmsg with
            | none =>
              simp only [query_gpt] at hm
              rw [if_neg h] at hm
              cases hm
            | some msg =>
              simp only [query_gpt] at hm
              rw [if_neg h] at hm
              cases hm
              exact ⟨_, _, rest, rfl, rfl, rfl⟩

theorem query_gpt_error_kinds_witness :
    query_gpt (some "t") ⟨500, none⟩ = .error (.apiError 500) ∧
      query_gpt (some "t") ⟨200, some ⟨none⟩⟩ = .error (.unexpected
        "Unexpected response format: Missing or empty choices in LLM response.") :=
  ⟨(query_gpt_error_kinds "t" 500 none).1 (by norm_num),
    (query_gpt_error_kinds "t" 200 (some ⟨none⟩)).2.1 (by norm_num)
      (by norm_num) ⟨none⟩ rfl (Or.inl rfl)⟩

/-! Claims about the error paths of `task_a9`. -/

/-- C3: for every comment list of length less than 2, `task_a9` fails with
the insufficient-input error and the output file is untouched. -/
theorem task_a9_insufficient_input (fetch : String → Except String (List ℝ))
    (comments : List String) (outFile : Option String)
    (h : comments.length < 2) :
    task_a9 fetch comments outFile = (outFile, .error .insufficientInput) := by
  unfold task_a9
  rw [if_pos h]

theorem task_a9_insufficient_input_witness :
    task_a9 (fun _ => Except.error "e") ["only one"] (some "old")
      = (some "old", Except.error A9Error.insufficientInput) :=
  task_a9_insufficient_input _ _ _ (by norm_num)

theorem getEmbeddings_error_of_fetch_error
    (fetch : String → Except String (List ℝ)) :
    ∀ cs : List String, (∃ c ∈ cs, ∃ m, fetch c = .error m) →
      ∃ m, getEmbeddings fetch cs = .error m := by
  intro cs
  induction cs with
  | nil =>
    rintro ⟨c, hc, -⟩
    exact absurd hc (List.not_mem_nil c)
  | cons c₀ cs ih =>
    rintro ⟨c, hc, m, hm⟩
    unfold getEmbeddings
    cases hf : fetch c₀ with
    | error m₀ => exact ⟨m₀, rfl⟩
    | ok e =>
      have hcs : c ∈ cs := by
        rcases List.mem_cons.mp hc with rfl | h
        · rw [hf] at hm; cases hm
        · exact h
      obtain ⟨m', hm'⟩ := ih ⟨c, hcs, m, hm⟩
      rw [hm']
      exact ⟨m', rfl⟩

/-- C4: if the embedding fetch fails for any single comment, `task_a9`
aborts with the embedding-service error: no pair is returned and the output
file keeps its prior content (no partial write occurs). -/
theorem task_a9_embedding_failure (fetch : String → Except String (List ℝ))
    (comments : List String) (outFile : Option String)
    (h2 : 2 ≤ comments.length)
    (hfail : ∃ c ∈ comments, ∃ m, fetch c = .error m) :
    ∃ m, task_a9 fetch comments outFile
      = (outFile, .error (.embeddingService m)) := by
  obtain ⟨m, hm⟩ := getEmbeddings_error_of_fetch_error fetch comments hfail
  refine ⟨m, ?_⟩
  unfold task_a9
  rw [if_neg (by omega), hm]

theorem task_a9_embedding_failure_witness :
    ∃ m, task_a9 (fun _ => Except.error "boom") ["a", "b"] (some "old")
      = (some "old", Except.error (A9Error.embeddingService m)) :=
  task_a9_embedding_failure _ _ _ (by norm_num)
    ⟨"a", by norm_num, "boom", rfl⟩

/-! The pair scan: order, membership and fold characterization. -/

/-- Strict lexicographic order on index pairs; this is the scan order of the
nested loops of `task_a9`. -/
def pairLexLt (p q : ℕ × ℕ) : Prop :=
  p.1 < q.1 ∨ (p.1 = q.1 ∧ p.2 < q.2)

theorem mem_pairList (n : ℕ) (p : ℕ × ℕ) :
    p ∈ pairList n ↔ p.1 < p.2 ∧ p.2 < n := by
  obtain ⟨a, b⟩ := p
  simp only [pairList, List.mem_flatMap, List.mem_map, List.mem_filter,
    List.mem_range, Prod.mk.injEq, decide_eq_true_eq]
  constructor
  · rintro ⟨i, _, j, ⟨hj, hij⟩, rfl, rfl⟩
    exact ⟨hij, hj⟩
  · rintro ⟨hab, hb⟩
    exact ⟨a, by omega, b, ⟨hb, hab⟩, rfl, rfl⟩

theorem pairList_pairwise (n : ℕ) : List.Pairwise pairLexLt (pairList n) := by
  unfold pairList
  rw [List.pairwise_flatMap]
  constructor
  · intro i _
    rw [List.pairwise_map]
    refine List.Pairwise.imp ?_ ((List.pairwise_lt_range n).filter _)
    intro a b hab
    exact Or.inr ⟨rfl, hab⟩
  · refine List.Pairwise.imp ?_ (List.pairwise_lt_range n)
    intro i₁ i₂ h12 x hx y hy
    obtain ⟨j₁, _, rfl⟩ := List.mem_map.mp hx
    obtain ⟨j₂, _, rfl⟩ := List.mem_map.mp hy
    exact Or.inl h12

/-- If no element of the list beats the running maximum, the scan state is
left unchanged. -/
theorem foldl_bestStep_const (s : ℕ × ℕ → ℝ) :
    ∀ (l : List (ℕ × ℕ)) (st : ℝ × Option (ℕ × ℕ)),
      (∀ p ∈ l, s p ≤ st.1) → l.foldl (bestStep s) st = st := by
  intro l
  induction l with
  | nil => intro st _; rfl
  | cons a t ih =>
    intro st h
    rw [List.foldl_cons]
    have ha : ¬ st.1 < s a := not_lt.mpr (h a (List.mem_cons_self a t))
    rw [show bestStep s st a = st from if_neg ha]
    exact ih st fun p hp => h p (List.mem_cons_of_mem a hp)

/-- If some element beats the running maximum, the scan ends at the first
element attaining the overall maximum: everything before it scores strictly
less, everything after it scores no more. -/
theorem foldl_bestStep_split (s : ℕ × ℕ → ℝ) :
    ∀ (l : List (ℕ × ℕ)) (st : ℝ × Option (ℕ × ℕ)),
      (∃ p ∈ l, st.1 < s p) →
      ∃ l₁ p l₂, l = l₁ ++ p :: l₂ ∧
        l.foldl (bestStep s) st = (s p, some p) ∧
        (∀ q ∈ l₁, s q < s p) ∧ st.1 < s p ∧
        (∀ q ∈ l₂, s q ≤ s p) := by
  intro l
  induction l with
  | nil =>
    rintro st ⟨p, hp, -⟩
    exact absurd hp (List.not_mem_nil p)
  | cons a t ih =>
    intro st h
    rw [List.foldl_cons]
    by_cases ha : st.1 < s a
    · rw [show bestStep s st a = (s a, some a) from if_pos ha]
      by_cases ht : ∃ p ∈ t, s a < s p
      · obtain ⟨l₁, p, l₂, heq, hfold, hl₁, hstp, hl₂⟩ := ih (s a, some a) ht
        refine ⟨a :: l₁, p, l₂, by rw [heq, List.cons_append], hfold, ?_,
          lt_trans ha hstp, hl₂⟩
        intro q hq
        rcases List.mem_cons.mp hq with rfl | hq
        · exact hstp
        · exact hl₁ q hq
      · push_neg at ht
        exact ⟨[], a, t, rfl, foldl_bestStep_const s t (s a, some a) ht,
          fun q hq => absurd hq (List.not_mem_nil q), ha, ht⟩
    · rw [show bestStep s st a = st from if_neg ha]
      obtain ⟨p, hp, hstp⟩ := h
      have hpt : p ∈ t := by
        rcases List.mem_cons.mp hp with rfl | h'
        · exact absurd hstp ha
        · exact h'
      obtain ⟨l₁, p', l₂, heq, hfold, hl₁, hstp', hl₂⟩ := ih st ⟨p, hpt, hstp⟩
      refine ⟨a :: l₁, p', l₂, by rw [heq, List.cons_append], hfold, ?_,
        hstp', hl₂⟩
      intro q hq
      rcases List.mem_cons.mp hq with rfl | hq
      · exact lt_of_le_of_lt (not_lt.mp ha) hstp'
      · exact hl₁ q hq

/-- C1 (amended): for every embedding list of at least two items in which at
least one pair scores strictly above -1.0, `find_most_similar` returns the
pair of maximal cosine similarity with `index_a < index_b`, and among equal
maxima the lexicographically smallest pair in scan order wins. -/
theorem find_most_similar_argmax (e : List (List ℝ)) (h2 : 2 ≤ e.length)
    (hex : ∃ a b, a < b ∧ b < e.length ∧ -1 < simOf e (a, b)) :
    ∃ i j, find_most_similar e = .ok (i, j, simOf e (i, j)) ∧
      i < j ∧ j < e.length ∧
      (∀ a b, a < b → b < e.length → simOf e (a, b) ≤ simOf e (i, j)) ∧
      (∀ a b, a < b → b < e.length → simOf e (a, b) = simOf e (i, j) →
        (i = a ∧ j = b) ∨ i < a ∨ (i = a ∧ j < b)) := by
  obtain ⟨a, b, hab, hbn, hsim⟩ := hex
  have hmem : (a, b) ∈ pairList e.length := (mem_pairList _ _).mpr ⟨hab, hbn⟩
  obtain ⟨l₁, p, l₂, heq, hfold, hl₁, -, hl₂⟩ :=
    foldl_bestStep_split (simOf e) (pairList e.length) (-1, none)
      ⟨(a, b), hmem, hsim⟩
  have hpmem : p ∈ pairList e.length := by
    rw [heq]
    exact List.mem_append_right _ (List.mem_cons_self _ _)
  obtain ⟨hp12, hp2⟩ := (mem_pairList _ _).mp hpmem
  have hpw := pairList_pairwise e.length
  rw [heq] at hpw
  have hplex : ∀ q ∈ l₂, pairLexLt p q :=
    (List.pairwise_cons.mp (List.pairwise_append.mp hpw).2.1).1
  refine ⟨p.1, p.2, ?_, hp12, hp2, ?_, ?_⟩
  · unfold find_most_similar
    rw [if_neg (by omega)]
    have hscan : a9Scan e = (simOf e p, some p) := hfold
    rw [hscan]
  · intro a' b' h1 h2'
    have hq : (a', b') ∈ pairList e.length := (mem_pairList _ _).mpr ⟨h1, h2'⟩
    rw [heq] at hq
    rcases List.mem_append.mp hq with hq | hq
    · exact (hl₁ _ hq).le
    · rcases List.mem_cons.mp hq with h' | hq
      · rw [h']
      · exact hl₂ _ hq
  · intro a' b' h1 h2' hEq
    have hq : (a', b') ∈ pairList e.length := (mem_pairList _ _).mpr ⟨h1, h2'⟩
    rw [heq] at hq
    rcases List.mem_append.mp hq with hq | hq
    · exact absurd hEq (ne_of_lt (hl₁ _ hq))
    · rcases List.mem_cons.mp hq with h' | hq
      · left
        exact ⟨(congrArg Prod.fst h').symm, (congrArg Prod.snd h').symm⟩
      · rcases hplex _ hq with h' | h'
        · right; left; exact h'
        · right; right; exact h'

/-! Concrete evaluations: single-component vectors. -/

theorem linalg_norm_single (x : ℝ) : linalg_norm [x] = |x| := by
  unfold linalg_norm
  have hd : dot [x] [x] = x ^ 2 := by simp [dot]; ring
  rw [hd, Real.sqrt_sq_eq_abs]

/-- The two opposite single-component embeddings score exactly -1.0. -/
theorem simOf_antiparallel (x : ℝ) (hx : 0 < x) :
    simOf [[x], [-x]] (0, 1) = -1 := by
  have h1 : linalg_norm [x] = x := by rw [linalg_norm_single, abs_of_pos hx]
  have h2 : linalg_norm [-x] = x := by
    rw [linalg_norm_single, abs_neg, abs_of_pos hx]
  show cosine_similarity [x] [-x] = -1
  unfold cosine_similarity
  rw [h1, h2, if_neg (by push_neg; exact ⟨hx.ne', hx.ne'⟩)]
  have hd : dot [x] [-x] = -(x * x) := by simp [dot]
  rw [hd, neg_div, div_self (by positivity)]

/-- When the single pair of a two-item list scores exactly -1.0, the strict
comparison against the initial `max_sim = -1.0` never fires, so
`find_most_similar` raises instead of returning a pair. -/
theorem find_most_similar_two_neg_one (v w : List ℝ)
    (h : simOf [v, w] (0, 1) = -1) :
    find_most_similar [v, w] = .error .noSimilarPair := by
  unfold find_most_similar
  rw [if_neg (by simp)]
  have hpl : pairList ([v, w].length) = [(0, 1)] := rfl
  have hscan : a9Scan [v, w] = (-1, none) := by
    unfold a9Scan
    rw [hpl, List.foldl_cons, List.foldl_nil,
      show bestStep (simOf [v, w]) (-1, none) (0, 1) = (-1, none) from
        if_neg (by rw [h]; norm_num)]
  rw [hscan]

/-- C10: on an input whose two embeddings are exact negatives of each other,
every pairwise cosine similarity is exactly -1.0 and `task_a9` raises
"Failed to find a similar pair of comments" instead of returning a pair:
the running maximum starts at -1.0 and is only replaced by a strictly
greater score. -/
theorem find_most_similar_all_neg_one :
    simOf [[(1 : ℝ)], [-1]] (0, 1) = -1 ∧
      find_most_similar [[(1 : ℝ)], [-1]] = .error .noSimilarPair := by
  have h := simOf_antiparallel 1 one_pos
  exact ⟨h, find_most_similar_two_neg_one _ _ h⟩

/-- C1 counterexample: a list of two items (more than one item, so the claim
as stated demands a returned pair) on which `find_most_similar` returns no
pair at all but the "Failed to find a similar pair of comments" error,
because both embeddings are exact negatives and the single pair scores
exactly -1.0. -/
theorem find_most_similar_argmax_counterexample :
    2 ≤ ([[(2 : ℝ)], [-2]] : List (List ℝ)).length ∧
      find_most_similar [[(2 : ℝ)], [-2]] = .error .noSimilarPair ∧
      ¬ ∃ i j m, find_most_similar [[(2 : ℝ)], [-2]] = .ok (i, j, m) := by
  have h := find_most_similar_two_neg_one [(2 : ℝ)] [-2]
    (simOf_antiparallel 2 two_pos)
  refine ⟨by norm_num, h, ?_⟩
  rintro ⟨i, j, m, hm⟩
  rw [h] at hm
  cases hm

theorem find_most_similar_argmax_witness :
    ∃ i j, find_most_similar [[(1 : ℝ)], [1]]
        = .ok (i, j, simOf [[(1 : ℝ)], [1]] (i, j)) ∧
      i < j ∧ j < ([[(1 : ℝ)], [1]] : List (List ℝ)).length ∧
      (∀ a b, a < b → b < ([[(1 : ℝ)], [1]] : List (List ℝ)).length →
        simOf [[(1 : ℝ)], [1]] (a, b) ≤ simOf [[(1 : ℝ)], [1]] (i, j)) ∧
      (∀ a b, a < b → b < ([[(1 : ℝ)], [1]] : List (List ℝ)).length →
        simOf [[(1 : ℝ)], [1]] (a, b) = simOf [[(1 : ℝ)], [1]] (i, j) →
        (i = a ∧ j = b) ∨ i < a ∨ (i = a ∧ j < b)) := by
  refine find_most_similar_argmax [[(1 : ℝ)], [1]] (by norm_num) ⟨0, 1, ?_, ?_, ?_⟩
  · norm_num
  · norm_num
  · show (-1 : ℝ) < cosine_similarity [1] [1]
    have h1 : linalg_norm [(1 : ℝ)] = 1 := by
      rw [linalg_norm_single, abs_one]
    unfold cosine_similarity
    rw [h1, if_neg (by norm_num)]
    have hd : dot [(1 : ℝ)] [1] = 1 := by simp [dot]
    rw [hd]
    norm_num

end AutomationAgent
